import Mathlib

/-!
Shallow embedding of the HolidayDashboard leave-accounting engine
(`src/holiday_dashboard/leave_service.py` backed by
`src/holiday_dashboard/storage.py`).

Modelling conventions:

* Monetary-style leave quantities (Python floats such as `25.0`, `0.5`) are
  modelled as rationals.  Every quantity reachable in the engine is a
  multiple of `1/2` bounded by small constants, so IEEE-double arithmetic on
  them is exact and agrees with rational arithmetic.
* JSON dictionaries with string keys are modelled as association lists in
  insertion order; Python dict assignment (replace if present, append if
  absent) is `setKey`, and dict lookup is `List.lookup`.
* Every public engine operation in the Python code performs
  `load_state()` (a fresh `json.loads` of the whole document), mutates the
  parsed copy, and `save_state(state)`.  We model this by threading the
  *stored* document explicitly: each operation takes the stored document and
  returns `(result, stored document after the operation)`.  A crucial
  consequence of the fresh parse is that the `Application` object found in
  the global `state["applications"]` index and the copy of that application
  held inside its employee's yearly record are *distinct* objects inside one
  call; in-place mutations of the one do not affect the other.  The
  embedding mirrors exactly which copies each Python statement mutates.
* `datetime.date` values (always produced by `strptime(_, "%Y-%m-%d")`) are
  modelled as explicit `(year, month, day)` triples ordered
  lexicographically, which is how Python orders dates.  The string
  round-trip between a date and its ISO form is lossless, so applications
  store the parsed date directly; the ISO-format validation performed by
  `strptime` is outside the claims and is not modelled.
* Nondeterministic inputs (`uuid4` ids, `utcnow` timestamps, the current
  calendar year) are passed as explicit parameters.
-/

namespace HolidayDashboard

/-- Calendar date as produced by `datetime.strptime(s, "%Y-%m-%d").date()`. -/
structure Date where
  year : Int
  month : Int
  day : Int
  deriving DecidableEq, Repr

/-- Python `datetime.date` comparison: lexicographic on (year, month, day). -/
def Date.le (a b : Date) : Bool :=
  decide (a.year < b.year ∨ (a.year = b.year ∧
    (a.month < b.month ∨ (a.month = b.month ∧ a.day ≤ b.day))))

/-- Allocation breakdown attached to a decided application:
the `allocation_breakdown` dict with keys `carry_over` / `current_year`. -/
structure Breakdown where
  carry_over : ℚ
  current_year : ℚ
  deriving DecidableEq, Repr

/-- Decision log entry appended by `decide_leave`. -/
structure HistoryEntry where
  acted_by : String
  decision : String
  comment : Option String
  acted_at : String
  deriving DecidableEq, Repr

/-- Leave application dict.  `allocation_breakdown` is absent (`none`) until a
decision attaches it; `status` is one of the strings `pending`, `approved`,
`rejected`. -/
structure Application where
  id : String
  employee_id : String
  year : Int
  date : Date
  leave_type : String
  duration : ℚ
  reason : Option String
  requested_by : String
  status : String
  created_at : String
  history : List HistoryEntry
  allocation_breakdown : Option Breakdown
  deriving DecidableEq, Repr

/-- Yearly record dict created by `_ensure_year_record`. -/
structure YearRecord where
  year : Int
  allocation : ℚ
  carry_over : ℚ
  carry_over_expiry : Date
  applications : List Application
  deriving DecidableEq, Repr

/-- Employee dict.  `yearly_records` is keyed by `str(year)`; since
`str` is injective on integers we key by the integer year. -/
structure Employee where
  id : String
  name : String
  created_at : String
  yearly_records : List (Int × YearRecord)
  deriving DecidableEq, Repr

/-- The whole persisted state document:
`employees` maps employee id to Employee, `applications` maps application id
to Application. -/
structure Document where
  employees : List (String × Employee)
  applications : List (String × Application)
  deriving DecidableEq, Repr

/-- Empty document, as initialised by `_ensure_storage_file`. -/
def emptyDocument : Document := ⟨[], []⟩

/-- Error taxonomy: one constructor per distinct `raise LeaveError(...)` site
reachable in the engine (the Python code distinguishes them by message). -/
inductive LeaveError where
  | employeeNotFound
  | duplicateEmployee
  | applicationNotFound
  | invalidLeaveType
  | invalidDate
  | invalidDecision
  | invalidState
  | insufficientBalance
  deriving DecidableEq, Repr

/-- Error component of an engine result, in decidable form. -/
def errOf {α : Type} : Except LeaveError α → Option LeaveError
  | .error e => some e
  | .ok _ => none

/-- Python dict assignment `d[k] = v` on an insertion-ordered dict:
replace in place if the key is present, else append. -/
def setKey {κ α : Type} [DecidableEq κ] (l : List (κ × α)) (k : κ) (v : α) :
    List (κ × α) :=
  if l.any (fun p => p.1 = k) then
    l.map (fun p => if p.1 = k then (k, v) else p)
  else
    l ++ [(k, v)]

/-- Reading `d.get("allocation_breakdown", \x7b\x7d).get("carry_over", 0.0)`. -/
def bdCarry : Option Breakdown → ℚ
  | none => 0
  | some b => b.carry_over

/-- Reading `d.get("allocation_breakdown", \x7b\x7d).get("current_year", 0.0)`. -/
def bdCurrent : Option Breakdown → ℚ
  | none => 0
  | some b => b.current_year

/-- Constant `LEAVE_TYPES` from `leave_service.py`. -/
def LEAVE_TYPES : List (String × ℚ) :=
  [("full", 1), ("first_half", mkRat 1 2), ("second_half", mkRat 1 2)]

/-- Constant `ANNUAL_ALLOCATION`. -/
def ANNUAL_ALLOCATION : ℚ := 25

/-- Constant `MAX_CARRY_OVER`. -/
def MAX_CARRY_OVER : ℚ := 5

/-- Constant `CARRY_OVER_EXPIRY_MONTH`. -/
def CARRY_OVER_EXPIRY_MONTH : Int := 3

/-- Constant `CARRY_OVER_EXPIRY_DAY`. -/
def CARRY_OVER_EXPIRY_DAY : Int := 31

/-- Python builtin `min` on two floats (first argument on ties), in a form
the kernel evaluates directly; proven equal to `min` below. -/
def pymin (a b : ℚ) : ℚ := if b < a then b else a

/-- Python builtin `max` on two floats (first argument on ties), in a form
the kernel evaluates directly; proven equal to `max` below. -/
def pymax (a b : ℚ) : ℚ := if a < b then b else a

/-- Rational addition in a form the kernel evaluates directly (the standard
`Rat.add` is marked irreducible); proven equal to `+` below. -/
def qadd (a b : ℚ) : ℚ :=
  mkRat (a.num * b.den + b.num * a.den) (a.den * b.den)

/-- Rational subtraction in a form the kernel evaluates directly (the
standard `Rat.sub` is marked irreducible); proven equal to `-` below. -/
def qsub (a b : ℚ) : ℚ :=
  mkRat (a.num * b.den - b.num * a.den) (a.den * b.den)

/-- Python `str.lower` restricted to ASCII letters (all decision strings the
claims quantify over are ASCII, where CPython's `str.lower` maps exactly the
range A-Z down by 32). -/
def lowerChar (c : Char) : Char :=
  if 'A' ≤ c ∧ c ≤ 'Z' then Char.ofNat (c.toNat + 32) else c

/-- ASCII lowercase of a string, modelling `decision.lower()`. -/
def strLower (s : String) : String := String.mk (s.data.map lowerChar)

/-- Sum of `current_year` portions over the approved applications of a list,
as in `_available_allocation` / `_calculate_carry_over` / `get_balance`. -/
def usedCurrent (apps : List Application) : ℚ :=
  ((apps.filter (fun a => a.status = "approved")).map
    (fun a => bdCurrent a.allocation_breakdown)).foldr qadd 0

/-- Sum of `carry_over` portions over the approved applications of a list. -/
def usedCarry (apps : List Application) : ℚ :=
  ((apps.filter (fun a => a.status = "approved")).map
    (fun a => bdCarry a.allocation_breakdown)).foldr qadd 0

/-- Function `_calculate_carry_over(employee, year)`. -/
def calculate_carry_over (employee : Employee) (year : Int) : ℚ :=
  match employee.yearly_records.lookup (year - 1) with
  | none => 0
  | some previous_record =>
      pymin MAX_CARRY_OVER
        (pymax 0 (qsub previous_record.allocation
          (usedCurrent previous_record.applications)))

/-- Function `_ensure_year_record(employee, year)`: returns the (possibly
extended) employee together with the record for `year`. -/
def ensure_year_record (employee : Employee) (year : Int) :
    Employee × YearRecord :=
  match employee.yearly_records.lookup year with
  | some record => (employee, record)
  | none =>
      let record : YearRecord :=
        { year := year
          allocation := ANNUAL_ALLOCATION
          carry_over := calculate_carry_over employee year
          carry_over_expiry :=
            ⟨year, CARRY_OVER_EXPIRY_MONTH, CARRY_OVER_EXPIRY_DAY⟩
          applications := [] }
      ({ employee with
          yearly_records := employee.yearly_records ++ [(year, record)] },
        record)

/-- Function `_get_or_create_year_record(state, employee, year)`.  The Python
version mutates `employee` in place (which is a subobject of `state`) and
calls `save_state(state)` when it had to create the record; we return the
stored document after the call, the updated employee, and the record.
`eid` is the key under which `employee` sits in `stored.employees`. -/
def get_or_create_year_record (stored : Document) (eid : String)
    (employee : Employee) (year : Int) : Document × Employee × YearRecord :=
  match employee.yearly_records.lookup year with
  | some record => (stored, employee, record)
  | none =>
      let er := ensure_year_record employee year
      ({ stored with employees := setKey stored.employees eid er.1 },
        er.1, er.2)

/-- Function `_available_allocation(record)`: (remaining carry-over,
remaining current-year allocation), both floored at zero. -/
def available_allocation (record : YearRecord) : ℚ × ℚ :=
  (pymax 0 (qsub record.carry_over (usedCarry record.applications)),
   pymax 0 (qsub record.allocation (usedCurrent record.applications)))

/-- Function `_allocate_for_date(record, leave_date, duration)`. -/
def allocate_for_date (record : YearRecord) (leave_date : Date)
    (duration : ℚ) : Except LeaveError Breakdown :=
  let remaining := available_allocation record
  let use_carry :=
    if Date.le leave_date record.carry_over_expiry then
      pymin duration remaining.1
    else 0
  let residual := qsub duration use_carry
  if residual > remaining.2 then
    .error .insufficientBalance
  else
    .ok { carry_over := use_carry, current_year := residual }

/-- Function `create_employee(name, employee_id)`.  `genId` stands for the
`uuid4().hex[:8]` value used when the caller supplies no (truthy) id;
`todayYear` for `_current_year()`; `today` for `_iso_today()`. -/
def create_employee (stored : Document) (name : String)
    (employee_id : Option String) (genId : String) (todayYear : Int)
    (today : String) : Except LeaveError Employee × Document :=
  let eid :=
    match employee_id with
    | none => genId
    | some s => if s = "" then genId else s
  if stored.employees.any (fun p => p.1 = eid) then
    (.error .duplicateEmployee, stored)
  else
    let employee : Employee :=
      { id := eid, name := name, created_at := today, yearly_records := [] }
    let employee1 := (ensure_year_record employee todayYear).1
    let doc1 : Document :=
      { stored with employees := setKey stored.employees eid employee1 }
    (.ok employee1, doc1)

/-- Function `apply_for_leave(employee_id, date, leave_type, reason,
requested_by)`.  `genId` stands for `uuid4().hex`; `createdAt` for the
`utcnow` timestamp.  The date-string validation of `strptime` is not
modelled (the date arrives already parsed). -/
def apply_for_leave (stored : Document) (employee_id : String) (date : Date)
    (leave_type : String) (reason : Option String)
    (requested_by : Option String) (genId : String) (createdAt : String) :
    Except LeaveError Application × Document :=
  match (LEAVE_TYPES.lookup leave_type) with
  | none => (.error .invalidLeaveType, stored)
  | some duration =>
    match stored.employees.lookup employee_id with
    | none => (.error .employeeNotFound, stored)
    | some employee =>
      let gcr := get_or_create_year_record stored employee_id employee date.year
      let doc1 := gcr.1
      let employee1 := gcr.2.1
      let record := gcr.2.2
      let application : Application :=
        { id := genId
          employee_id := employee_id
          year := date.year
          date := date
          leave_type := leave_type
          duration := duration
          reason := reason
          requested_by :=
            match requested_by with
            | none => employee.name
            | some s => if s = "" then employee.name else s
          status := "pending"
          created_at := createdAt
          history := []
          allocation_breakdown := none }
      let record1 := { record with
        applications := record.applications ++ [application] }
      let employee2 := { employee1 with
        yearly_records := setKey employee1.yearly_records date.year record1 }
      let doc2 : Document :=
        { employees := setKey doc1.employees employee_id employee2
          applications := setKey doc1.applications genId application }
      (.ok application, doc2)

/-- Function `decide_leave(application_id, approver, decision, comment)`.
`actedAt` stands for the `utcnow` timestamp of the history entry.

The Python statements `application["allocation_breakdown"] = ...`,
`application["status"] = decision` and
`application.setdefault("history", []).append(...)` mutate the object found
in the global `state["applications"]` index.  Because `load_state()`
re-parses the JSON file, that object is distinct from the copy of the same
application held in the yearly record's `applications` list, so only the
global index entry is updated here — exactly as in the source. -/
def decide_leave (stored : Document) (application_id : String)
    (approver : String) (decision0 : String) (comment : Option String)
    (actedAt : String) : Except LeaveError Application × Document :=
  let decision := strLower decision0
  if ¬(decision = "approved" ∨ decision = "rejected") then
    (.error .invalidDecision, stored)
  else
    match stored.applications.lookup application_id with
    | none => (.error .applicationNotFound, stored)
    | some application =>
      if application.status ≠ "pending" then
        (.error .invalidState, stored)
      else
        match stored.employees.lookup application.employee_id with
        | none => (.error .employeeNotFound, stored)
        | some employee =>
          let gcr := get_or_create_year_record stored application.employee_id
            employee application.year
          let doc1 := gcr.1
          let record := gcr.2.2
          let history_entry : HistoryEntry :=
            { acted_by := approver, decision := decision, comment := comment
              acted_at := actedAt }
          let finish : Breakdown → Except LeaveError Application × Document :=
            fun breakdown =>
              let application1 := { application with
                allocation_breakdown := some breakdown
                status := decision
                history := application.history ++ [history_entry] }
              (.ok application1,
                { doc1 with
                    applications :=
                      setKey doc1.applications application_id application1 })
          if decision = "approved" then
            match allocate_for_date record application.date
              application.duration with
            | .error e => (.error e, doc1)
            | .ok breakdown => finish breakdown
          else
            finish { carry_over := 0, current_year := 0 }

/-- Truthiness test `if employee_id and ...` on an optional string filter:
`None` and the empty string are falsy. -/
def strTruthy : Option String → Bool
  | none => false
  | some s => ¬(s = "")

/-- Filter predicate of the loop body in `get_applications`: an application
is kept iff every supplied (truthy) filter matches it. -/
def app_matches (employee_id status : Option String) (a : Application) :
    Bool :=
  (¬ strTruthy employee_id ∨ some a.employee_id = employee_id) ∧
  (¬ strTruthy status ∨ some a.status = status)

/-- Function `get_applications(employee_id, status)`: filter the values of
the global application index, then
`sorted(results, key=lambda app: app["created_at"], reverse=True)` —
a stable sort, descending on the `created_at` string. -/
def get_applications (stored : Document)
    (employee_id status : Option String) : List Application :=
  (((stored.applications.map Prod.snd).filter
      (app_matches employee_id status)).mergeSort
    (fun a b => b.created_at ≤ a.created_at))

/-- Result dict of `get_balance`. -/
structure BalanceSummary where
  employee_id : String
  employee_name : String
  year : Int
  allocation : ℚ
  carry_over : ℚ
  carry_over_expiry : Date
  used_current_year : ℚ
  used_carry_over : ℚ
  remaining_current_year : ℚ
  remaining_carry_over : ℚ
  applications : List Application
  deriving DecidableEq, Repr

/-- Function `get_balance(employee_id, year)`.  `currentYear` stands for
`_current_year()`; Python's `year or _current_year()` treats both `None`
and `0` as absent. -/
def get_balance (stored : Document) (employee_id : String)
    (year0 : Option Int) (currentYear : Int) :
    Except LeaveError BalanceSummary × Document :=
  match stored.employees.lookup employee_id with
  | none => (.error .employeeNotFound, stored)
  | some employee =>
    let year :=
      match year0 with
      | none => currentYear
      | some y => if y = 0 then currentYear else y
    let gcr := get_or_create_year_record stored employee_id employee year
    let doc1 := gcr.1
    let record := gcr.2.2
    let remaining := available_allocation record
    (.ok
      { employee_id := employee_id
        employee_name := employee.name
        year := year
        allocation := record.allocation
        carry_over := record.carry_over
        carry_over_expiry := record.carry_over_expiry
        used_current_year := usedCurrent record.applications
        used_carry_over := usedCarry record.applications
        remaining_current_year := remaining.2
        remaining_carry_over := remaining.1
        applications := record.applications },
      doc1)

/-- Function `get_employee(employee_id)` (read-only). -/
def get_employee (stored : Document) (employee_id : String) :
    Except LeaveError Employee × Document :=
  match stored.employees.lookup employee_id with
  | none => (.error .employeeNotFound, stored)
  | some employee => (.ok employee, stored)

/-! Claim-side formulas (written from the wording of the specification, for
comparison with the engine definitions above). -/

/-- Formula from the spec: remaining carry-over of record R, namely
R.carry_over minus the carry-over portions of R's approved applications,
floored at zero. -/
def claimRemainingCarry (R : YearRecord) : ℚ :=
  max 0 (R.carry_over - usedCarry R.applications)

/-- Formula from the spec: remaining current-year allocation of record R. -/
def claimRemainingCurrent (R : YearRecord) : ℚ :=
  max 0 (R.allocation - usedCurrent R.applications)

/-- Formula from the spec: the carry-over portion of the split of `d` units
requested on date `t` against record R — `min(d, remaining carry-over)`
when `t` is on or before the expiry date, and `0` otherwise. -/
def claimCarryPart (R : YearRecord) (t : Date) (d : ℚ) : ℚ :=
  if Date.le t R.carry_over_expiry then min d (claimRemainingCarry R) else 0

/-! Engine operations bundled, to state invariants preserved by every
operation.  Each constructor carries the operation's inputs, together with
the environment inputs (generated ids, timestamps, the current year). -/

/-- One invocation of a public engine operation. -/
inductive Op where
  | createEmployee (name : String) (employee_id : Option String)
      (genId : String) (todayYear : Int) (today : String)
  | applyForLeave (employee_id : String) (date : Date) (leave_type : String)
      (reason requested_by : Option String) (genId createdAt : String)
  | decideLeave (application_id approver decision : String)
      (comment : Option String) (actedAt : String)
  | getBalance (employee_id : String) (year0 : Option Int) (currentYear : Int)
  | getEmployee (employee_id : String)
  | getApplications (employee_id status : Option String)
  | listEmployees

/-- Stored document after running one engine operation against the stored
document (the read-only operations `get_applications` and `list_employees`
never call `save_state`; `get_balance` may persist a lazily created record). -/
def runOp (stored : Document) : Op → Document
  | .createEmployee name eid genId todayYear today =>
      (create_employee stored name eid genId todayYear today).2
  | .applyForLeave eid date lt reason rby genId createdAt =>
      (apply_for_leave stored eid date lt reason rby genId createdAt).2
  | .decideLeave aid approver decision comment actedAt =>
      (decide_leave stored aid approver decision comment actedAt).2
  | .getBalance eid year0 currentYear =>
      (get_balance stored eid year0 currentYear).2
  | .getEmployee eid => (get_employee stored eid).2
  | .getApplications _ _ => stored
  | .listEmployees => stored

/-- Caps invariant of one yearly record: approved current-year usage within
`allocation`, approved carry-over usage within `carry_over`. -/
def recordCaps (r : YearRecord) : Prop :=
  usedCurrent r.applications ≤ r.allocation ∧
  usedCarry r.applications ≤ r.carry_over

/-- Caps invariant over all of an employee's yearly records. -/
def employeeCaps (e : Employee) : Prop :=
  ∀ p ∈ e.yearly_records, recordCaps p.2

/-- Caps invariant over the whole document. -/
def InvCaps (d : Document) : Prop :=
  ∀ q ∈ d.employees, employeeCaps q.2

instance (r : YearRecord) : Decidable (recordCaps r) := by
  unfold recordCaps
  infer_instance

instance (e : Employee) : Decidable (employeeCaps e) := by
  unfold employeeCaps
  infer_instance

instance (d : Document) : Decidable (InvCaps d) := by
  unfold InvCaps
  infer_instance

/-- Referential well-formedness needed around one application id: whenever
the id resolves and its employee resolves, the employee owns a yearly record
for the application's year.  Every application created through
`apply_for_leave` satisfies this (the record is created before the
application is linked in). -/
def recordPresent (stored : Document) (application_id : String) : Bool :=
  match stored.applications.lookup application_id with
  | none => true
  | some app =>
    match stored.employees.lookup app.employee_id with
    | none => true
    | some e => (e.yearly_records.lookup app.year).isSome

/-! Concrete scenario documents (the §8 scenario of the spec: employee
alice created fresh in 2024, one full-day application on 2024-01-10,
approved).  Each step feeds the stored document of the previous one,
modelling persist-and-reload between calls. -/

/-- Stored document after `create_employee("alice", "alice")` in 2024. -/
def aliceDoc1 : Document :=
  (create_employee emptyDocument "alice" (some "alice") "genid" 2024
    "2024-01-02").2

/-- Stored document after alice applies for a full day on 2024-01-10. -/
def aliceDoc2 : Document :=
  (apply_for_leave aliceDoc1 "alice" ⟨2024, 1, 10⟩ "full" none none "app1"
    "2024-01-03T09:00:00Z").2

/-- Result of approving alice's application. -/
def aliceDecision : Except LeaveError Application × Document :=
  decide_leave aliceDoc2 "app1" "boss" "approved" none "2024-01-04T09:00:00Z"

/-- Stored document after the approval. -/
def aliceDoc3 : Document := aliceDecision.2

/-! Concrete documents for the double-spend experiment: alice files 26
full-day applications for 2024-06-03 (after the carry-over expiry), then 24
of them are approved, leaving a true remaining balance of 1.0 against two
pending 1.0 requests. -/

/-- Application ids p0 .. p25. -/
def overIds : List String :=
  (List.range 26).map (fun i => String.append "p" (toString i))

/-- Stored document after alice files the 26 applications. -/
def overDocA : Document :=
  overIds.foldl
    (fun d i =>
      (apply_for_leave d "alice" ⟨2024, 6, 3⟩ "full" none none i
        (String.append "2024-05-01T00:00:00Z#" i)).2)
    aliceDoc1

/-- Stored document after approving the first 24 of them. -/
def overDocB : Document :=
  ((List.range 24).map (fun i => String.append "p" (toString i))).foldl
    (fun d i => (decide_leave d i "boss" "approved" none "2024-05-02").2)
    overDocA

/-- First of the two jointly-excessive approvals. -/
def overStep1 : Except LeaveError Application × Document :=
  decide_leave overDocB "p24" "boss" "approved" none "2024-05-03"

/-- Second of the two jointly-excessive approvals, run strictly after the
first one committed (the most favourable serialisation). -/
def overStep2 : Except LeaveError Application × Document :=
  decide_leave overStep1.2 "p25" "boss" "approved" none "2024-05-04"

/-- Total approved current-year usage recorded in the global application
index of a document. -/
def globalApprovedCurrent (d : Document) : ℚ :=
  usedCurrent (d.applications.map Prod.snd)

/-! Concrete employee used to exercise carry-over computation: bob has a
2023 record with 24.0 of the 25.0 allocation consumed by approved
applications. -/

/-- Approved 2023 application consuming 24.0 current-year units. -/
def bobOldApp : Application :=
  { id := "old1", employee_id := "bob", year := 2023, date := ⟨2023, 5, 1⟩
    leave_type := "full", duration := 1, reason := none, requested_by := "bob"
    status := "approved", created_at := "2023-05-01T00:00:00Z", history := []
    allocation_breakdown := some ⟨0, 24⟩ }

/-- Bob's 2023 yearly record. -/
def bobPrev : YearRecord :=
  { year := 2023, allocation := 25, carry_over := 0
    carry_over_expiry := ⟨2023, 3, 31⟩, applications := [bobOldApp] }

/-- Bob with only the 2023 record. -/
def bobEmployee : Employee :=
  { id := "bob", name := "Bob", created_at := "2023-01-01"
    yearly_records := [(2023, bobPrev)] }

/-- The pending application stored in `aliceDoc2` (both in the global index
and inside the 2024 record). -/
def aliceApp : Application :=
  { id := "app1", employee_id := "alice", year := 2024, date := ⟨2024, 1, 10⟩
    leave_type := "full", duration := 1, reason := none
    requested_by := "alice", status := "pending"
    created_at := "2024-01-03T09:00:00Z", history := []
    allocation_breakdown := none }

/-- Alice's 2024 yearly record as stored in `aliceDoc2`. -/
def aliceRec : YearRecord :=
  { year := 2024, allocation := 25, carry_over := 0
    carry_over_expiry := ⟨2024, 3, 31⟩, applications := [aliceApp] }

/-- Alice as stored in `aliceDoc2`. -/
def aliceEmp : Employee :=
  { id := "alice", name := "alice", created_at := "2024-01-02"
    yearly_records := [(2024, aliceRec)] }

/-! Bridge lemmas: the kernel-evaluable arithmetic wrappers agree with the
standard operations. -/

theorem pymin_eq (a b : ℚ) : pymin a b = min a b := by
  unfold pymin
  rcases lt_or_ge b a with h | h
  · rw [if_pos h, min_eq_right h.le]
  · rw [if_neg (not_lt.mpr h), min_eq_left h]

theorem pymax_eq (a b : ℚ) : pymax a b = max a b := by
  unfold pymax
  rcases lt_or_ge a b with h | h
  · rw [if_pos h, max_eq_right h.le]
  · rw [if_neg (not_lt.mpr h), max_eq_left h]

theorem qadd_eq (a b : ℚ) : qadd a b = a + b := by
  unfold qadd mkRat
  rw [dif_neg (Nat.mul_ne_zero a.den_nz b.den_nz), Rat.add_def]

theorem qsub_eq (a b : ℚ) : qsub a b = a - b := by
  unfold qsub mkRat
  rw [dif_neg (Nat.mul_ne_zero a.den_nz b.den_nz), Rat.sub_def]

theorem foldr_qadd_eq_sum (l : List ℚ) : l.foldr qadd 0 = l.sum := by
  induction l with
  | nil => rfl
  | cons x xs ih => simp [List.foldr_cons, List.sum_cons, qadd_eq, ih]

theorem usedCurrent_eq_sum (apps : List Application) :
    usedCurrent apps =
      ((apps.filter (fun a => a.status = "approved")).map
        (fun a => bdCurrent a.allocation_breakdown)).sum := by
  unfold usedCurrent
  exact foldr_qadd_eq_sum _

theorem usedCarry_eq_sum (apps : List Application) :
    usedCarry apps =
      ((apps.filter (fun a => a.status = "approved")).map
        (fun a => bdCarry a.allocation_breakdown)).sum := by
  unfold usedCarry
  exact foldr_qadd_eq_sum _

/-! Association-list lemmas for the dict model. -/

theorem lookup_mem {κ α : Type} [BEq κ] [LawfulBEq κ] {l : List (κ × α)}
    {k : κ} {v : α} (h : l.lookup k = some v) : (k, v) ∈ l := by
  induction l with
  | nil => simp [List.lookup] at h
  | cons p t ih =>
    obtain ⟨k2, v2⟩ := p
    simp only [List.lookup] at h
    cases hk : (k == k2) with
    | true =>
      rw [hk] at h
      simp only [Option.some.injEq] at h
      have hkk : k = k2 := beq_iff_eq.mp hk
      subst hkk
      subst h
      exact List.mem_cons_self _ _
    | false =>
      rw [hk] at h
      exact List.mem_cons_of_mem _ (ih h)

theorem mem_setKey {κ α : Type} [DecidableEq κ] {l : List (κ × α)} {k : κ}
    {v : α} : ∀ p ∈ setKey l k v, p = (k, v) ∨ p ∈ l := by
  intro p hp
  unfold setKey at hp
  split at hp
  · rcases List.mem_map.mp hp with ⟨q, hq, he⟩
    by_cases hqk : q.1 = k
    · rw [if_pos hqk] at he
      exact Or.inl he.symm
    · rw [if_neg hqk] at he
      exact Or.inr (he ▸ hq)
  · rcases List.mem_append.mp hp with h | h
    · exact Or.inr h
    · exact Or.inl (List.mem_singleton.mp h)

theorem lookup_map_replace {κ α : Type} [DecidableEq κ] [BEq κ] [LawfulBEq κ]
    (l : List (κ × α)) (k : κ) (v : α)
    (h : l.any (fun p => p.1 = k) = true) :
    (l.map (fun p => if p.1 = k then (k, v) else p)).lookup k = some v := by
  induction l with
  | nil => simp at h
  | cons p t ih =>
    obtain ⟨k2, v2⟩ := p
    by_cases hk : k2 = k
    · subst hk
      rw [List.map_cons, if_pos rfl]
      simp [List.lookup]
    · have h2 : t.any (fun p => p.1 = k) = true := by
        rw [List.any_cons] at h
        rcases Bool.or_eq_true_iff.mp h with h1 | h1
        · exact absurd (of_decide_eq_true h1) hk
        · exact h1
      have hne : (k == k2) = false := by
        rcases Bool.eq_false_or_eq_true (k == k2) with hb | hb
        · exact absurd (beq_iff_eq.mp hb).symm hk
        · exact hb
      rw [List.map_cons, if_neg hk]
      simp only [List.lookup, hne]
      exact ih h2

theorem lookup_append_single {κ α : Type} [DecidableEq κ] [BEq κ]
    [LawfulBEq κ] (l : List (κ × α)) (k : κ) (v : α)
    (h : l.any (fun p => p.1 = k) = false) :
    (l ++ [(k, v)]).lookup k = some v := by
  induction l with
  | nil => simp [List.lookup]
  | cons p t ih =>
    obtain ⟨k2, v2⟩ := p
    rw [List.any_cons, Bool.or_eq_false_iff] at h
    obtain ⟨h1, h2⟩ := h
    have hk : ¬ k2 = k := of_decide_eq_false h1
    have hne : (k == k2) = false := by
      rcases Bool.eq_false_or_eq_true (k == k2) with hb | hb
      · exact absurd (beq_iff_eq.mp hb).symm hk
      · exact hb
    rw [List.cons_append]
    simp only [List.lookup, hne]
    exact ih h2

theorem lookup_setKey_self {κ α : Type} [DecidableEq κ] [BEq κ] [LawfulBEq κ]
    (l : List (κ × α)) (k : κ) (v : α) :
    (setKey l k v).lookup k = some v := by
  by_cases h : l.any (fun p => p.1 = k) = true
  · rw [setKey, if_pos h]
    exact lookup_map_replace l k v h
  · rw [setKey, if_neg h]
    exact lookup_append_single l k v (Bool.not_eq_true _ ▸ h)

/-! Control-flow characterisations of the engine operations. -/

theorem get_or_create_found (stored : Document) (eid : String)
    (e : Employee) (y : Int) (R : YearRecord)
    (hrec : e.yearly_records.lookup y = some R) :
    get_or_create_year_record stored eid e y = (stored, e, R) := by
  unfold get_or_create_year_record
  rw [hrec]

theorem decide_leave_approved_eq (stored : Document)
    (aid approver dec0 : String) (c : Option String) (ts : String)
    (app : Application) (e : Employee) (R : YearRecord)
    (hdec : strLower dec0 = "approved")
    (happ : stored.applications.lookup aid = some app)
    (hpend : app.status = "pending")
    (hemp : stored.employees.lookup app.employee_id = some e)
    (hrec : e.yearly_records.lookup app.year = some R) :
    decide_leave stored aid approver dec0 c ts =
      match allocate_for_date R app.date app.duration with
      | .error err => (.error err, stored)
      | .ok bd =>
          (.ok
            { app with
                allocation_breakdown := some bd
                status := "approved"
                history := app.history ++ [⟨approver, "approved", c, ts⟩] },
            { stored with
                applications := setKey stored.applications aid
                  { app with
                      allocation_breakdown := some bd
                      status := "approved"
                      history :=
                        app.history ++ [⟨approver, "approved", c, ts⟩] } }) := by
  unfold decide_leave
  rw [hdec, happ]
  simp only [hpend, hemp, get_or_create_found stored app.employee_id e
    app.year R hrec]
  norm_num

theorem decide_leave_rejected_eq (stored : Document)
    (aid approver dec0 : String) (c : Option String) (ts : String)
    (app : Application) (e : Employee) (R : YearRecord)
    (hdec : strLower dec0 = "rejected")
    (happ : stored.applications.lookup aid = some app)
    (hpend : app.status = "pending")
    (hemp : stored.employees.lookup app.employee_id = some e)
    (hrec : e.yearly_records.lookup app.year = some R) :
    decide_leave stored aid approver dec0 c ts =
      (.ok
        { app with
            allocation_breakdown := some ⟨0, 0⟩
            status := "rejected"
            history := app.history ++ [⟨approver, "rejected", c, ts⟩] },
        { stored with
            applications := setKey stored.applications aid
              { app with
                  allocation_breakdown := some ⟨0, 0⟩
                  status := "rejected"
                  history :=
                    app.history ++ [⟨approver, "rejected", c, ts⟩] } }) := by
  unfold decide_leave
  rw [hdec, happ]
  simp only [hpend, hemp, get_or_create_found stored app.employee_id e
    app.year R hrec]
  norm_num
  exact fun h => absurd h (by decide)

theorem allocate_for_date_eq_claim (R : YearRecord) (t : Date) (d : ℚ) :
    allocate_for_date R t d =
      (if d - claimCarryPart R t d > claimRemainingCurrent R then
        .error .insufficientBalance
      else
        .ok ⟨claimCarryPart R t d, d - claimCarryPart R t d⟩) := by
  simp only [allocate_for_date, available_allocation, claimCarryPart,
    claimRemainingCarry, claimRemainingCurrent, qsub_eq, pymax_eq, pymin_eq]

/-- C1: when `decide_leave` approves an application of duration `d` dated
`t` against yearly record `R`, the attached breakdown follows the split
algorithm — the carry-over portion is `min(d, remaining carry-over)` when
`t ≤ R.carry_over_expiry` and `0` otherwise, the residual is drawn from the
current-year allocation, and the approval fails with `InsufficientBalance`
exactly when the residual exceeds the remaining current-year allocation.
In particular a request dated strictly after the expiry draws zero
carry-over. -/
theorem claim_C1_approval_follows_split (stored : Document)
    (aid approver dec0 : String) (c : Option String) (ts : String)
    (app : Application) (e : Employee) (R : YearRecord)
    (hdec : strLower dec0 = "approved")
    (happ : stored.applications.lookup aid = some app)
    (hpend : app.status = "pending")
    (hemp : stored.employees.lookup app.employee_id = some e)
    (hrec : e.yearly_records.lookup app.year = some R) :
    (app.duration - claimCarryPart R app.date app.duration >
        claimRemainingCurrent R →
      (decide_leave stored aid approver dec0 c ts).1 =
        .error .insufficientBalance) ∧
    (app.duration - claimCarryPart R app.date app.duration ≤
        claimRemainingCurrent R →
      ∃ app1, (decide_leave stored aid approver dec0 c ts).1 = .ok app1 ∧
        app1.allocation_breakdown =
          some ⟨claimCarryPart R app.date app.duration,
            app.duration - claimCarryPart R app.date app.duration⟩ ∧
        app1.status = "approved") ∧
    (Date.le app.date R.carry_over_expiry = false →
      claimCarryPart R app.date app.duration = 0) := by
  have key := decide_leave_approved_eq stored aid approver dec0 c ts app e R
    hdec happ hpend hemp hrec
  rw [allocate_for_date_eq_claim] at key
  refine ⟨?_, ?_, ?_⟩
  · intro hgt
    rw [key, if_pos hgt]
  · intro hle
    rw [key, if_neg (not_lt.mpr hle)]
    exact ⟨_, rfl, rfl, rfl⟩
  · intro hf
    simp [claimCarryPart, hf]

/-- Witness for C1: approving alice's full-day application splits it as
zero carry-over and one current-year unit. -/
theorem claim_C1_witness :
    ∃ app1,
      (decide_leave aliceDoc2 "app1" "boss" "approved" none
        "2024-01-04T09:00:00Z").1 = .ok app1 ∧
      app1.allocation_breakdown = some ⟨0, 1⟩ := by
  have hrc : claimRemainingCarry aliceRec = 0 := by
    rw [claimRemainingCarry,
      show usedCarry aliceRec.applications = 0 from by decide,
      show aliceRec.carry_over = 0 from rfl]
    norm_num
  have hcc : claimCarryPart aliceRec aliceApp.date aliceApp.duration = 0 := by
    rw [claimCarryPart, if_pos (by decide : Date.le aliceApp.date
      aliceRec.carry_over_expiry = true), hrc,
      show aliceApp.duration = 1 from rfl]
    norm_num
  have hrcur : claimRemainingCurrent aliceRec = 25 := by
    rw [claimRemainingCurrent,
      show usedCurrent aliceRec.applications = 0 from by decide,
      show aliceRec.allocation = 25 from rfl]
    norm_num
  obtain ⟨app1, h1, h2, h3⟩ :=
    (claim_C1_approval_follows_split aliceDoc2 "app1" "boss" "approved" none
      "2024-01-04T09:00:00Z" aliceApp aliceEmp aliceRec (by decide)
      (by decide) (by decide) (by decide) (by decide)).2.1
      (by rw [hcc, hrcur, show aliceApp.duration = 1 from rfl]; norm_num)
  refine ⟨app1, h1, ?_⟩
  have heval : (decide_leave aliceDoc2 "app1" "boss" "approved" none
      "2024-01-04T09:00:00Z").1.toOption.map
        (fun a => a.allocation_breakdown) = some (some ⟨0, 1⟩) := by decide
  rw [h1] at heval
  simp only [Except.toOption, Option.map_some', Option.some.injEq] at heval
  exact heval

/-- C2: the carry-over computed when the yearly record for year Y is
created equals `min(MAX_CARRY_OVER, max(0, prev.allocation − prev's
approved current-year usage))`, and equals 0 when there is no record for
year Y−1; in particular the record created by `create_employee` for a fresh
employee has zero carry-over. -/
theorem claim_C2_carry_over_formula (e : Employee) (Y : Int)
    (hnew : e.yearly_records.lookup Y = none) :
    ((e.yearly_records.lookup (Y - 1) = none →
        (ensure_year_record e Y).2.carry_over = 0) ∧
      (∀ prev, e.yearly_records.lookup (Y - 1) = some prev →
        (ensure_year_record e Y).2.carry_over =
          min MAX_CARRY_OVER
            (max 0 (prev.allocation - usedCurrent prev.applications)))) ∧
    (∀ stored name eidOpt genId ts em,
        (create_employee stored name eidOpt genId Y ts).1 = .ok em →
        ∀ r, em.yearly_records.lookup Y = some r → r.carry_over = 0) := by
  constructor
  · constructor
    · intro hprev
      simp only [ensure_year_record, hnew, calculate_carry_over, hprev]
    · intro prev hprev
      simp only [ensure_year_record, hnew, calculate_carry_over, hprev,
        pymin_eq, pymax_eq, qsub_eq]
  · intro stored name eidOpt genId ts em hok r hr
    simp only [create_employee] at hok
    split at hok
    · exact absurd hok (by simp)
    · simp only [Except.ok.injEq] at hok
      subst hok
      simp only [ensure_year_record, List.lookup_nil, List.nil_append] at hr
      simp only [List.lookup, beq_self_eq_true, Option.some.injEq] at hr
      subst hr
      simp [calculate_carry_over, List.lookup_nil]

/-- Witness for C2: a fresh 2024 record for bob (whose 2023 record has 24.0
approved current-year units) carries over `min(5, 25 − 24) = 1.0`, and a
fresh employee's record carries over zero. -/
theorem claim_C2_witness :
    (ensure_year_record bobEmployee 2024).2.carry_over = 1 ∧
    (ensure_year_record (Employee.mk "carol" "Carol" "2024-01-01" [])
      2024).2.carry_over = 0 := by
  have h := claim_C2_carry_over_formula bobEmployee 2024 (by decide)
  have h2 := claim_C2_carry_over_formula
    (Employee.mk "carol" "Carol" "2024-01-01" []) 2024 (by decide)
  constructor
  · rw [h.1.2 bobPrev (by decide)]
    rw [show usedCurrent bobPrev.applications = 24 from by decide]
    norm_num [bobPrev, MAX_CARRY_OVER]
  · exact h2.1.1 (by decide)

/-- C3 counter-evidence: after the approval of alice's application, the
global application index holds it with status approved while the copy held
inside alice's 2024 yearly record still shows pending — the two storage
locations of the same application id disagree, refuting the duplication
invariant. -/
theorem claim_C3_duplicate_index_desync :
    (aliceDoc3.applications.lookup "app1").map Application.status =
      some "approved" ∧
    ((aliceDoc3.employees.lookup "alice").bind
      (fun e => (e.yearly_records.lookup 2024).map
        (fun r => r.applications.map (fun a => (a.id, a.status))))) =
      some [("app1", "pending")] := by decide

/-- C4 counter-evidence: in the spec's §8 scenario, the freshly created
employee's balance is reported as claimed (allocation 25, carry-over 0,
remaining 25), the full-day application is approved, but the subsequent
balance still reports zero used and 25 remaining current-year units,
because the approval only updated the global index copy of the
application. -/
theorem claim_C4_scenario_balance_stale :
    ((get_balance aliceDoc1 "alice" (some 2024) 2024).1.toOption.map
      (fun b => (b.allocation, b.carry_over, b.remaining_current_year))) =
        some (25, 0, 25) ∧
    (aliceDecision.1.toOption.map Application.status) = some "approved" ∧
    ((get_balance aliceDoc3 "alice" (some 2024) 2024).1.toOption.map
      (fun b => (b.used_current_year, b.remaining_current_year))) =
        some (0, 25) := by decide

theorem decide_leave_invalid_eq (stored : Document)
    (aid approver dec0 : String) (c : Option String) (ts : String)
    (hdec : ¬(strLower dec0 = "approved" ∨ strLower dec0 = "rejected")) :
    decide_leave stored aid approver dec0 c ts =
      (.error .invalidDecision, stored) := by
  unfold decide_leave
  rw [if_pos hdec]

theorem decide_leave_notfound_eq (stored : Document)
    (aid approver dec0 : String) (c : Option String) (ts : String)
    (hdec : strLower dec0 = "approved" ∨ strLower dec0 = "rejected")
    (hnone : stored.applications.lookup aid = none) :
    decide_leave stored aid approver dec0 c ts =
      (.error .applicationNotFound, stored) := by
  unfold decide_leave
  rw [if_neg (not_not_intro hdec), hnone]

theorem decide_leave_invalidstate_eq (stored : Document)
    (aid approver dec0 : String) (c : Option String) (ts : String)
    (app : Application)
    (hdec : strLower dec0 = "approved" ∨ strLower dec0 = "rejected")
    (happ : stored.applications.lookup aid = some app)
    (hst : app.status ≠ "pending") :
    decide_leave stored aid approver dec0 c ts =
      (.error .invalidState, stored) := by
  unfold decide_leave
  rw [if_neg (not_not_intro hdec), happ]
  simp only [if_pos hst]

theorem decide_leave_noemployee_eq (stored : Document)
    (aid approver dec0 : String) (c : Option String) (ts : String)
    (app : Application)
    (hdec : strLower dec0 = "approved" ∨ strLower dec0 = "rejected")
    (happ : stored.applications.lookup aid = some app)
    (hpend : app.status = "pending")
    (hemp : stored.employees.lookup app.employee_id = none) :
    decide_leave stored aid approver dec0 c ts =
      (.error .employeeNotFound, stored) := by
  unfold decide_leave
  rw [if_neg (not_not_intro hdec), happ]
  simp only [hpend, hemp]
  norm_num

/-- C5 as stated is refuted: with an unrecognized decision value and an
application id absent from the global index, `decide_leave` fails with
`InvalidDecision`, not `NotFound`, because the decision check runs before
the existence check; so it is not the case that it fails with `NotFound`
exactly when the id is absent. -/
theorem claim_C5_counterexample :
    emptyDocument.applications.lookup "nope" = none ∧
    errOf (decide_leave emptyDocument "nope" "boss" "maybe" none "t0").1 =
      some .invalidDecision ∧
    (decide_leave emptyDocument "nope" "boss" "maybe" none "t0").2 =
      emptyDocument := by decide

/-- C5 amended: the checks run in order decision → existence → state:
`decide_leave` fails with `InvalidDecision` exactly when the lowercased
decision is neither recognized value; given a recognized decision, with
`NotFound` exactly when the application id is absent from the global index;
given a recognized decision and a present application, with `InvalidState`
exactly when that application is not pending.  On every failure (including
`InsufficientBalance` during approval) the stored document is unchanged,
provided the application's yearly record exists — which holds for every
application created through `apply_for_leave`. -/
theorem claim_C5_amended_failure_semantics (stored : Document)
    (aid approver dec0 : String) (c : Option String) (ts : String)
    (hwf : recordPresent stored aid = true) :
    (∀ err, (decide_leave stored aid approver dec0 c ts).1 = .error err →
        (decide_leave stored aid approver dec0 c ts).2 = stored) ∧
    ((decide_leave stored aid approver dec0 c ts).1 =
        .error .invalidDecision ↔
      ¬(strLower dec0 = "approved" ∨ strLower dec0 = "rejected")) ∧
    ((strLower dec0 = "approved" ∨ strLower dec0 = "rejected") →
      ((decide_leave stored aid approver dec0 c ts).1 =
          .error .applicationNotFound ↔
        stored.applications.lookup aid = none)) ∧
    ((strLower dec0 = "approved" ∨ strLower dec0 = "rejected") →
      ∀ app, stored.applications.lookup aid = some app →
        ((decide_leave stored aid approver dec0 c ts).1 =
            .error .invalidState ↔ app.status ≠ "pending")) := by
  by_cases hd : strLower dec0 = "approved" ∨ strLower dec0 = "rejected"
  case neg =>
    rw [decide_leave_invalid_eq stored aid approver dec0 c ts hd]
    refine ⟨fun _ _ => rfl, by simp [hd], fun h => absurd h hd,
      fun h => absurd h hd⟩
  case pos =>
    cases happ : stored.applications.lookup aid with
    | none =>
      rw [decide_leave_notfound_eq stored aid approver dec0 c ts hd happ]
      refine ⟨fun _ _ => rfl, by simp [hd], fun _ => by simp,
        fun _ app h => absurd h (by simp)⟩
    | some app =>
      by_cases hst : app.status = "pending"
      case neg =>
        rw [decide_leave_invalidstate_eq stored aid approver dec0 c ts app hd
          happ hst]
        refine ⟨fun _ _ => rfl, by simp [hd], fun _ => by simp,
          fun _ app2 h2 => ?_⟩
        simp only [Option.some.injEq] at h2
        subst h2
        simp [hst]
      case pos =>
        cases hemp : stored.employees.lookup app.employee_id with
        | none =>
          rw [decide_leave_noemployee_eq stored aid approver dec0 c ts app hd
            happ hst hemp]
          refine ⟨fun _ _ => rfl, by simp [hd], fun _ => by simp,
            fun _ app2 h2 => ?_⟩
          simp only [Option.some.injEq] at h2
          subst h2
          simp [hst]
        | some e =>
          have hrec : ∃ R, e.yearly_records.lookup app.year = some R := by
            simp only [recordPresent, happ, hemp] at hwf
            exact Option.isSome_iff_exists.mp hwf
          obtain ⟨R, hrec⟩ := hrec
          rcases hd with hda | hdr
          · have key := decide_leave_approved_eq stored aid approver dec0 c
              ts app e R hda happ hst hemp hrec
            rw [allocate_for_date_eq_claim] at key
            by_cases hgt : app.duration -
                claimCarryPart R app.date app.duration >
                claimRemainingCurrent R
            · rw [if_pos hgt] at key
              rw [key]
              refine ⟨fun _ _ => rfl, by simp [Or.inl hda],
                fun _ => by simp, fun _ app2 h2 => ?_⟩
              simp only [Option.some.injEq] at h2
              subst h2
              simp [hst]
            · rw [if_neg hgt] at key
              rw [key]
              refine ⟨fun err h => absurd h (by simp),
                by simp [Or.inl hda], fun _ => by simp,
                fun _ app2 h2 => ?_⟩
              simp only [Option.some.injEq] at h2
              subst h2
              simp [hst]
          · have key := decide_leave_rejected_eq stored aid approver dec0 c
              ts app e R hdr happ hst hemp hrec
            rw [key]
            refine ⟨fun err h => absurd h (by simp),
              by simp [Or.inr hdr], fun _ => by simp,
              fun _ app2 h2 => ?_⟩
            simp only [Option.some.injEq] at h2
            subst h2
            simp [hst]

/-- Witness for the amended C5: an unrecognized decision against a present,
pending application yields `InvalidDecision` and leaves the stored document
untouched. -/
theorem claim_C5_witness :
    (decide_leave aliceDoc2 "app1" "boss" "banana" none "t5").1 =
      .error .invalidDecision ∧
    (decide_leave aliceDoc2 "app1" "boss" "banana" none "t5").2 =
      aliceDoc2 := by
  have h := claim_C5_amended_failure_semantics aliceDoc2 "app1" "boss"
    "banana" none "t5" (by decide)
  have h1 := (h.2.1).mpr (by decide)
  exact ⟨h1, h.1 _ h1⟩

/-! Lemmas towards the caps invariant (C6). -/

theorem calculate_carry_over_nonneg (e : Employee) (y : Int) :
    0 ≤ calculate_carry_over e y := by
  unfold calculate_carry_over
  cases e.yearly_records.lookup (y - 1) with
  | none => exact le_refl 0
  | some prev =>
    show 0 ≤ pymin MAX_CARRY_OVER
      (pymax 0 (qsub prev.allocation (usedCurrent prev.applications)))
    rw [pymin_eq, pymax_eq]
    exact le_min (by norm_num [MAX_CARRY_OVER]) (le_max_left 0 _)

theorem usedCurrent_nil : usedCurrent [] = 0 := rfl

theorem usedCarry_nil : usedCarry [] = 0 := rfl

theorem recordCaps_created (e : Employee) (y : Int) :
    recordCaps
      { year := y, allocation := ANNUAL_ALLOCATION
        carry_over := calculate_carry_over e y
        carry_over_expiry := ⟨y, CARRY_OVER_EXPIRY_MONTH, CARRY_OVER_EXPIRY_DAY⟩
        applications := [] } := by
  constructor
  · rw [show usedCurrent [] = 0 from rfl]
    norm_num [ANNUAL_ALLOCATION]
  · rw [show usedCarry [] = 0 from rfl]
    exact calculate_carry_over_nonneg e y

theorem employeeCaps_ensure (e : Employee) (y : Int) (h : employeeCaps e) :
    employeeCaps (ensure_year_record e y).1 ∧
    recordCaps (ensure_year_record e y).2 := by
  unfold ensure_year_record
  cases hrec : e.yearly_records.lookup y with
  | some R => exact ⟨h, h _ (lookup_mem hrec)⟩
  | none =>
    constructor
    · intro p hp
      rcases List.mem_append.mp hp with hp | hp
      · exact h p hp
      · rw [List.mem_singleton.mp hp]
        exact recordCaps_created e y
    · exact recordCaps_created e y

theorem get_or_create_caps (stored : Document) (eid : String) (e : Employee)
    (y : Int) (hd : InvCaps stored) (he : employeeCaps e) :
    InvCaps (get_or_create_year_record stored eid e y).1 ∧
    employeeCaps (get_or_create_year_record stored eid e y).2.1 ∧
    recordCaps (get_or_create_year_record stored eid e y).2.2 := by
  unfold get_or_create_year_record
  cases hrec : e.yearly_records.lookup y with
  | some R => exact ⟨hd, he, he _ (lookup_mem hrec)⟩
  | none =>
    have hens := employeeCaps_ensure e y he
    refine ⟨?_, hens.1, hens.2⟩
    intro q hq
    rcases mem_setKey q hq with h | h
    · rw [h]
      exact hens.1
    · exact hd q h

theorem usedCurrent_append_of_ne (l : List Application) (a : Application)
    (h : a.status ≠ "approved") : usedCurrent (l ++ [a]) = usedCurrent l := by
  unfold usedCurrent
  rw [List.filter_append]
  have hnil : List.filter (fun x => decide (x.status = "approved")) [a]
      = [] := by
    simp [List.filter, h]
  rw [hnil, List.append_nil]

theorem usedCarry_append_of_ne (l : List Application) (a : Application)
    (h : a.status ≠ "approved") : usedCarry (l ++ [a]) = usedCarry l := by
  unfold usedCarry
  rw [List.filter_append]
  have hnil : List.filter (fun x => decide (x.status = "approved")) [a]
      = [] := by
    simp [List.filter, h]
  rw [hnil, List.append_nil]

theorem recordCaps_append_pending (R : YearRecord) (a : Application)
    (hR : recordCaps R) (h : a.status ≠ "approved") :
    recordCaps { R with applications := R.applications ++ [a] } := by
  constructor
  · rw [show YearRecord.applications { R with
      applications := R.applications ++ [a] } = R.applications ++ [a]
        from rfl, usedCurrent_append_of_ne _ _ h]
    exact hR.1
  · rw [show YearRecord.applications { R with
      applications := R.applications ++ [a] } = R.applications ++ [a]
        from rfl, usedCarry_append_of_ne _ _ h]
    exact hR.2

theorem invCaps_of_employees_eq {d1 d2 : Document}
    (h : d1.employees = d2.employees) (h2 : InvCaps d2) : InvCaps d1 := by
  intro q hq
  rw [h] at hq
  exact h2 q hq

theorem decide_leave_snd_employees (stored : Document)
    (aid approver dec : String) (c : Option String) (ts : String)
    (app : Application) (e : Employee)
    (hd : strLower dec = "approved" ∨ strLower dec = "rejected")
    (happ : stored.applications.lookup aid = some app)
    (hst : app.status = "pending")
    (hemp : stored.employees.lookup app.employee_id = some e) :
    (decide_leave stored aid approver dec c ts).2.employees =
      (get_or_create_year_record stored app.employee_id e
        app.year).1.employees := by
  unfold decide_leave
  rw [if_neg (not_not_intro hd), happ]
  simp only [hst, hemp]
  norm_num
  by_cases hda : strLower dec = "approved"
  · rw [if_pos hda]
    cases allocate_for_date
        (get_or_create_year_record stored app.employee_id e app.year).2.2
        app.date app.duration with
    | error err => rfl
    | ok bd => rfl
  · rw [if_neg hda]

/-- C6: the caps invariant — for every employee and yearly record, approved
current-year usage never exceeds the record's allocation and approved
carry-over usage never exceeds the record's carry-over — is preserved by
every engine operation. -/
theorem claim_C6_caps_invariant (stored : Document) (op : Op)
    (hinv : InvCaps stored) : InvCaps (runOp stored op) := by
  cases op with
  | createEmployee name eidOpt genId y ts =>
    simp only [runOp, create_employee]
    split
    · exact hinv
    · intro q hq
      rcases mem_setKey q hq with h | h
      · rw [h]
        exact (employeeCaps_ensure _ y
          (fun p hp => absurd hp (List.not_mem_nil p))).1
      · exact hinv q h
  | applyForLeave eid date lt reason rby genId createdAt =>
    simp only [runOp, apply_for_leave]
    cases hlt : LEAVE_TYPES.lookup lt with
    | none => exact hinv
    | some dur =>
      cases hemp : stored.employees.lookup eid with
      | none => exact hinv
      | some e =>
        have he := hinv _ (lookup_mem hemp)
        have hg := get_or_create_caps stored eid e date.year hinv he
        intro q hq
        rcases mem_setKey q hq with h | h
        · rw [h]
          intro p hp
          rcases mem_setKey p hp with h2 | h2
          · rw [h2]
            refine recordCaps_append_pending _ _ hg.2.2 ?_
            intro hc
            simp at hc
          · exact hg.2.1 p h2
        · exact hg.1 q h
  | decideLeave aid approver dec comment actedAt =>
    show InvCaps (decide_leave stored aid approver dec comment actedAt).2
    by_cases hd : strLower dec = "approved" ∨ strLower dec = "rejected"
    case neg =>
      rw [decide_leave_invalid_eq stored aid approver dec comment actedAt hd]
      exact hinv
    case pos =>
      cases happ : stored.applications.lookup aid with
      | none =>
        rw [decide_leave_notfound_eq stored aid approver dec comment actedAt
          hd happ]
        exact hinv
      | some app =>
        by_cases hst : app.status = "pending"
        case neg =>
          rw [decide_leave_invalidstate_eq stored aid approver dec comment
            actedAt app hd happ hst]
          exact hinv
        case pos =>
          cases hemp : stored.employees.lookup app.employee_id with
          | none =>
            rw [decide_leave_noemployee_eq stored aid approver dec comment
              actedAt app hd happ hst hemp]
            exact hinv
          | some e =>
            have he := hinv _ (lookup_mem hemp)
            have hg := get_or_create_caps stored app.employee_id e app.year
              hinv he
            exact invCaps_of_employees_eq
              (decide_leave_snd_employees stored aid approver dec comment
                actedAt app e hd happ hst hemp) hg.1
  | getBalance eid y0 cy =>
    simp only [runOp, get_balance]
    cases hemp : stored.employees.lookup eid with
    | none => exact hinv
    | some e =>
      exact (get_or_create_caps stored eid e _ hinv
        (hinv _ (lookup_mem hemp))).1
  | getEmployee eid =>
    simp only [runOp, get_employee]
    cases stored.employees.lookup eid with
    | none => exact hinv
    | some e => exact hinv
  | getApplications a b => exact hinv
  | listEmployees => exact hinv

/-- Witness for C6: the caps invariant holds for the concrete stored
document with alice's pending application and is preserved by approving
it. -/
theorem claim_C6_witness :
    InvCaps aliceDoc2 ∧
    InvCaps (runOp aliceDoc2
      (.decideLeave "app1" "boss" "approved" none "t6")) := by
  have h0 : InvCaps aliceDoc2 := by decide
  exact ⟨h0, claim_C6_caps_invariant aliceDoc2 _ h0⟩

/-- C7: rejecting a pending application always succeeds regardless of the
remaining balance, attaches the zero/zero breakdown, and leaves the balance
summary reported by `get_balance` for the owning employee and year entirely
unchanged. -/
theorem claim_C7_rejection_preserves_balance (stored : Document)
    (aid approver : String) (c : Option String) (ts : String)
    (app : Application) (e : Employee) (R : YearRecord)
    (happ : stored.applications.lookup aid = some app)
    (hpend : app.status = "pending")
    (hemp : stored.employees.lookup app.employee_id = some e)
    (hrec : e.yearly_records.lookup app.year = some R) :
    ∃ app1, (decide_leave stored aid approver "rejected" c ts).1 = .ok app1 ∧
      app1.allocation_breakdown = some ⟨0, 0⟩ ∧
      app1.status = "rejected" ∧
      (get_balance (decide_leave stored aid approver "rejected" c ts).2
          app.employee_id (some app.year) app.year).1 =
        (get_balance stored app.employee_id (some app.year) app.year).1 := by
  have key := decide_leave_rejected_eq stored aid approver "rejected" c ts
    app e R (by decide) happ hpend hemp hrec
  refine ⟨_, by rw [key], rfl, rfl, ?_⟩
  rw [key]
  unfold get_balance
  simp only [hemp, ite_self, get_or_create_found _ _ _ _ _ hrec]

/-- Witness for C7: rejecting alice's pending application yields the
zero/zero breakdown. -/
theorem claim_C7_witness :
    ∃ app1,
      (decide_leave aliceDoc2 "app1" "boss" "rejected" none "t7").1 =
        .ok app1 ∧
      app1.allocation_breakdown = some ⟨0, 0⟩ := by
  obtain ⟨app1, h1, h2, h3, h4⟩ := claim_C7_rejection_preserves_balance
    aliceDoc2 "app1" "boss" none "t7" aliceApp aliceEmp aliceRec (by decide)
    (by decide) (by decide) (by decide)
  exact ⟨app1, h1, h2⟩

/-- C8: `get_applications` returns exactly the applications of the global
index that pass all supplied (truthy) filters, AND-combined, as a list
ordered by creation timestamp descending. -/
theorem claim_C8_get_applications_filter_sort (stored : Document)
    (eidF stF : Option String) :
    (get_applications stored eidF stF).Perm
      ((stored.applications.map Prod.snd).filter (app_matches eidF stF)) ∧
    List.Pairwise (fun a b => b.created_at ≤ a.created_at)
      (get_applications stored eidF stF) := by
  constructor
  · exact List.mergeSort_perm _ _
  · have htrans : ∀ a b c2 : Application,
        (fun a b : Application =>
          decide (b.created_at ≤ a.created_at)) a b = true →
        (fun a b : Application =>
          decide (b.created_at ≤ a.created_at)) b c2 = true →
        (fun a b : Application =>
          decide (b.created_at ≤ a.created_at)) a c2 = true := by
      intro a b c2 h1 h2
      exact decide_eq_true
        (le_trans (of_decide_eq_true h2) (of_decide_eq_true h1))
    have htotal : ∀ a b : Application,
        ((fun a b : Application =>
            decide (b.created_at ≤ a.created_at)) a b ||
          (fun a b : Application =>
            decide (b.created_at ≤ a.created_at)) b a) = true := by
      intro a b
      rcases le_total a.created_at b.created_at with h | h
      · exact Bool.or_eq_true_iff.mpr (Or.inr (decide_eq_true h))
      · exact Bool.or_eq_true_iff.mpr (Or.inl (decide_eq_true h))
    have h := List.sorted_mergeSort htrans htotal
      ((stored.applications.map Prod.snd).filter (app_matches eidF stF))
    exact h.imp (fun hab => of_decide_eq_true hab)

set_option maxRecDepth 40000 in
/-- C9 counter-evidence: against a stored state with 24.0 approved units of
the 25.0 allocation, the two pending full-day applications individually fit
the true remaining balance of 1.0 but jointly exceed it; yet even when the
two approvals are fully serialised (the strongest guarantee any locking
discipline could provide), both succeed, and the approved usage recorded in
the global index reaches 26.0, beyond the 25.0 cap.  The remaining-balance
check reads the yearly record's application copies, which `decide_leave`
never updates. -/
theorem claim_C9_sequential_double_spend :
    globalApprovedCurrent overDocB = 24 ∧
    (overStep1.1.toOption.map Application.status = some "approved") ∧
    (overStep2.1.toOption.map Application.status = some "approved") ∧
    globalApprovedCurrent overStep2.2 = 26 ∧
    ¬ globalApprovedCurrent overStep2.2 ≤ ANNUAL_ALLOCATION := by decide

theorem decide_leave_approved_general (stored : Document)
    (aid approver dec0 : String) (c : Option String) (ts : String)
    (app : Application) (e : Employee)
    (hdec : strLower dec0 = "approved")
    (happ : stored.applications.lookup aid = some app)
    (hpend : app.status = "pending")
    (hemp : stored.employees.lookup app.employee_id = some e) :
    decide_leave stored aid approver dec0 c ts =
      (match allocate_for_date
          (get_or_create_year_record stored app.employee_id e
            app.year).2.2 app.date app.duration with
      | .error err =>
          (.error err,
            (get_or_create_year_record stored app.employee_id e app.year).1)
      | .ok bd =>
          (.ok
            { app with
                allocation_breakdown := some bd
                status := "approved"
                history := app.history ++ [⟨approver, "approved", c, ts⟩] },
            { (get_or_create_year_record stored app.employee_id e
                app.year).1 with
                applications := setKey
                  (get_or_create_year_record stored app.employee_id e
                    app.year).1.applications aid
                  { app with
                      allocation_breakdown := some bd
                      status := "approved"
                      history :=
                        app.history ++
                          [⟨approver, "approved", c, ts⟩] } })) := by
  unfold decide_leave
  rw [hdec, happ]
  simp only [hpend, hemp]
  norm_num

theorem decide_leave_rejected_general (stored : Document)
    (aid approver dec0 : String) (c : Option String) (ts : String)
    (app : Application) (e : Employee)
    (hdec : strLower dec0 = "rejected")
    (happ : stored.applications.lookup aid = some app)
    (hpend : app.status = "pending")
    (hemp : stored.employees.lookup app.employee_id = some e) :
    decide_leave stored aid approver dec0 c ts =
      (.ok
        { app with
            allocation_breakdown := some ⟨0, 0⟩
            status := "rejected"
            history := app.history ++ [⟨approver, "rejected", c, ts⟩] },
        { (get_or_create_year_record stored app.employee_id e
            app.year).1 with
            applications := setKey
              (get_or_create_year_record stored app.employee_id e
                app.year).1.applications aid
              { app with
                  allocation_breakdown := some ⟨0, 0⟩
                  status := "rejected"
                  history :=
                    app.history ++ [⟨approver, "rejected", c, ts⟩] } }) := by
  unfold decide_leave
  rw [hdec, happ]
  simp only [hpend, hemp]
  norm_num
  exact fun h => absurd h (by decide)

/-- C10: the decision value is accepted case-insensitively — any string
whose (ASCII) lowercase form is approved or rejected is never rejected as
`InvalidDecision`, and whenever the decision succeeds, the status stored on
the application in the global index and the decision recorded in the
appended history entry are the lowercased form. -/
theorem claim_C10_case_insensitive_decision (stored : Document)
    (aid approver dec0 : String) (c : Option String) (ts : String)
    (h : strLower dec0 = "approved" ∨ strLower dec0 = "rejected") :
    (decide_leave stored aid approver dec0 c ts).1 ≠
      .error .invalidDecision ∧
    (∀ app1, (decide_leave stored aid approver dec0 c ts).1 = .ok app1 →
      app1.status = strLower dec0 ∧
      (app1.history.getLast?).map HistoryEntry.decision =
        some (strLower dec0) ∧
      (decide_leave stored aid approver dec0 c ts).2.applications.lookup
        aid = some app1) := by
  cases happ : stored.applications.lookup aid with
  | none =>
    rw [decide_leave_notfound_eq stored aid approver dec0 c ts h happ]
    exact ⟨by simp, fun app1 h1 => absurd h1 (by simp)⟩
  | some app =>
    by_cases hst : app.status = "pending"
    case neg =>
      rw [decide_leave_invalidstate_eq stored aid approver dec0 c ts app h
        happ hst]
      exact ⟨by simp, fun app1 h1 => absurd h1 (by simp)⟩
    case pos =>
      cases hemp : stored.employees.lookup app.employee_id with
      | none =>
        rw [decide_leave_noemployee_eq stored aid approver dec0 c ts app h
          happ hst hemp]
        exact ⟨by simp, fun app1 h1 => absurd h1 (by simp)⟩
      | some e =>
        rcases h with hda | hdr
        · rw [decide_leave_approved_general stored aid approver dec0 c ts
            app e hda happ hst hemp]
          rw [allocate_for_date_eq_claim]
          by_cases hgt : app.duration -
              claimCarryPart (get_or_create_year_record stored
                app.employee_id e app.year).2.2 app.date app.duration >
              claimRemainingCurrent (get_or_create_year_record stored
                app.employee_id e app.year).2.2
          · rw [if_pos hgt]
            exact ⟨by simp, fun app1 h1 => absurd h1 (by simp)⟩
          · rw [if_neg hgt]
            refine ⟨by simp, fun app1 h1 => ?_⟩
            simp only [Except.ok.injEq] at h1
            subst h1
            refine ⟨hda.symm, ?_, lookup_setKey_self _ _ _⟩
            rw [show Application.history { app with
              allocation_breakdown := some
                (⟨claimCarryPart (get_or_create_year_record stored
                    app.employee_id e app.year).2.2 app.date app.duration,
                  app.duration - claimCarryPart
                    (get_or_create_year_record stored app.employee_id e
                      app.year).2.2 app.date app.duration⟩ : Breakdown)
              status := "approved"
              history := app.history ++ [⟨approver, "approved", c, ts⟩] } =
                app.history ++ [⟨approver, "approved", c, ts⟩] from rfl]
            rw [List.getLast?_concat]
            rw [hda]
            rfl
        · rw [decide_leave_rejected_general stored aid approver dec0 c ts
            app e hdr happ hst hemp]
          refine ⟨by simp, fun app1 h1 => ?_⟩
          simp only [Except.ok.injEq] at h1
          subst h1
          refine ⟨hdr.symm, ?_, lookup_setKey_self _ _ _⟩
          rw [show Application.history { app with
            allocation_breakdown := some (⟨0, 0⟩ : Breakdown)
            status := "rejected"
            history := app.history ++ [⟨approver, "rejected", c, ts⟩] } =
              app.history ++ [⟨approver, "rejected", c, ts⟩] from rfl]
          rw [List.getLast?_concat]
          rw [hdr]
          rfl

/-- Witness for C10: the uppercase decision APPROVED is processed and
stored in lowercase. -/
theorem claim_C10_witness :
    (decide_leave aliceDoc2 "app1" "boss" "APPROVED" none "t8").1 ≠
      .error .invalidDecision := by
  exact (claim_C10_case_insensitive_decision aliceDoc2 "app1" "boss"
    "APPROVED" none "t8" (Or.inl (by decide))).1

end HolidayDashboard
